import Mathlib

/-!
Verification of the verse tokenizer / commentary resolver
(`src/app/verses-display.tsx`) and the structured document extractor
(`scripts/…` markdown-to-JSON converter) of the shri-lalitasahasranama
repository.

Strings are modelled as `List Char` (`Str`); JavaScript dictionaries
(`Record<string, string>` objects and `Map`s) are modelled as association
lists in insertion order, which matches JavaScript enumeration order for
the non-integer-like Devanagari keys these dictionaries use.
-/

namespace LSN

abbrev Str := List Char

/-- The JavaScript `\s` character class (also the character set removed by
`String.prototype.trim`). -/
def jsWS (c : Char) : Bool :=
  c = ' ' || c = '\t' || c = '\n' || c = '\x0b' || c = '\x0c' || c = '\r' ||
  c = ' ' || c = ' ' || (' ' ≤ c && c ≤ ' ') ||
  c = ' ' || c = ' ' || c = ' ' || c = ' ' ||
  c = '　' || c = '﻿'

def isAsciiDigit (c : Char) : Bool := '0' ≤ c && c ≤ '9'

/-- Devanagari digits `०`–`९` (U+0966–U+096F), the `[०-९]` part of the
verse-marker pattern. -/
def isDevDigit (c : Char) : Bool := '०' ≤ c && c ≤ '९'

/-- JavaScript `String.prototype.trim`. -/
def trimChars (cs : Str) : Str :=
  ((cs.dropWhile jsWS).reverse.dropWhile jsWS).reverse

/-!
## Devanagari tokenizer (`parseWordsFromLine`, verses-display.tsx 28–107)
-/

/-- Match the verse-marker regex `॥\s*[०-९\d]+\s*॥` at the head of `cs`.
Returns the matched span and the remainder.  The character classes
(`॥`, whitespace, digits) are pairwise disjoint, so the greedy match is
deterministic and needs no backtracking. -/
def matchMarker : Str → Option (Str × Str)
  | [] => none
  | c :: rest =>
    if c = '॥' then
      let w1 := rest.takeWhile jsWS
      let r1 := rest.dropWhile jsWS
      let ds := r1.takeWhile (fun d => isDevDigit d || isAsciiDigit d)
      let r2 := r1.dropWhile (fun d => isDevDigit d || isAsciiDigit d)
      if ds.isEmpty then none
      else
        let w2 := r2.takeWhile jsWS
        let r3 := r2.dropWhile jsWS
        match r3 with
        | d :: r4 =>
          if d = '॥' then some ('॥' :: (w1 ++ ds ++ w2 ++ ['॥']), r4) else none
        | [] => none
    else none

/-- `line.split(/(॥\s*[०-९\d]+\s*॥)/)`: split at each leftmost match of the
verse-marker pattern, keeping the matched spans (the regex has a capturing
group, so JavaScript `split` interleaves them with the pieces between).
Fuelled so the definition is structurally recursive; `fuel = cs.length`
is always sufficient because each marker match consumes at least three
characters. -/
def splitMarkersF : Nat → Str → Str → List Str
  | 0, _, acc => [acc.reverse]
  | Nat.succ fuel, cs, acc =>
    match cs with
    | [] => [acc.reverse]
    | c :: rest =>
      match matchMarker (c :: rest) with
      | some (m, r) => acc.reverse :: m :: splitMarkersF fuel r []
      | none => splitMarkersF fuel rest (c :: acc)

def splitMarkers (cs : Str) : List Str := splitMarkersF cs.length cs []

/-- The test `/॥\s*[०-९\d]+\s*॥/.test(part)`. -/
def containsMarker : Str → Bool
  | [] => false
  | c :: rest => (matchMarker (c :: rest)).isSome || containsMarker rest

/-- Split at every whitespace character (runs of whitespace therefore
produce empty pieces). -/
def splitWsChar : Str → List Str
  | [] => [[]]
  | c :: rest =>
    match splitWsChar rest with
    | [] => []
    | t :: ts => if jsWS c then [] :: t :: ts else (c :: t) :: ts

/-- `part.split(/\s+/).filter((w) => w && w.trim())`: the non-empty
whitespace-delimited units of a span.  Splitting on single whitespace
characters and dropping empty pieces yields the same list as splitting on
whitespace runs and dropping empty pieces, since the units contain no
whitespace. -/
def wsWords (p : Str) : List Str := (splitWsChar p).filter (fun w => !w.isEmpty)

/-- Length of the trailing run of single-danda `।` characters. -/
def countTrailingDanda (u : Str) : Nat :=
  ((u.reverse).takeWhile (fun c => c = '।')).length

/-- `word.match(/^(.+?)([।]*)$/)` on a non-empty unit: the lazy `(.+?)`
makes group 1 the shortest non-empty prefix whose remainder is all `।`,
i.e. the unit minus its trailing danda run — except that when the unit is
all dandas, group 1 keeps the first character. -/
def dandaSplit (u : Str) : Str × Str :=
  let k := countTrailingDanda u
  if k = u.length then (u.take 1, u.drop 1)
  else (u.take (u.length - k), u.drop (u.length - k))

/-- A segment pushed onto `result` in `parseWordsFromLine`:
`{ word, isWord, breakdownComponents? }`. -/
structure Seg where
  word : Str
  isWord : Bool
  breakdownComponents : Option (List Str) := none
deriving DecidableEq, Repr

/-- The per-line breakdown map (`Map<string, string[]>`), insertion order. -/
abbrev BMap := List (Str × List Str)

def bmapGet (m : BMap) (k : Str) : Option (List Str) :=
  (m.find? (fun kv => kv.1 == k)).map (·.2)

/-- `Map.set`: overwrite in place if the key exists, else append. -/
def bmapSet (m : BMap) (k : Str) (v : List Str) : BMap :=
  match m with
  | [] => [(k, v)]
  | kv :: rest => if kv.1 == k then (k, v) :: rest else kv :: bmapSet rest k v

/-- Processing of one whitespace-delimited unit (verses-display.tsx 74–98):
split off the trailing `।` run, emit the main word (with its breakdown
components when the map has them) and then the punctuation run. -/
def emitUnit (bds : BMap) (u : Str) : List Seg :=
  if u.isEmpty then []
  else
    let mainWord := (dandaSplit u).1
    let punct := (dandaSplit u).2
    (if mainWord.isEmpty then []
     else
       match bmapGet bds mainWord with
       | some comps => [{ word := mainWord, isWord := true, breakdownComponents := some comps }]
       | none => [{ word := mainWord, isWord := true }])
    ++ (if punct.isEmpty then [] else [{ word := punct, isWord := false }])

def sepSeg : Seg := { word := [' '], isWord := false }

/-- The word loop of verses-display.tsx 74–103: emit each unit's segments,
and a single-space separator segment after every unit except the last. -/
def emitWords (bds : BMap) : List Str → List Seg
  | [] => []
  | [u] => emitUnit bds u
  | u :: rest => emitUnit bds u ++ sepSeg :: emitWords bds rest

/-- Processing of one piece of the marker split (verses-display.tsx 61–104):
blank pieces are skipped, verse markers are emitted verbatim as
non-clickable segments, and other pieces are split into words. -/
def partContribution (bds : BMap) (p : Str) : List Seg :=
  if p.isEmpty || (trimChars p).isEmpty then []
  else if containsMarker p then [{ word := p, isWord := false }]
  else emitWords bds (wsWords p)

/-- The tokenization phase of `parseWordsFromLine` that runs on the line
after bracket-breakdown removal (verses-display.tsx 58–106). -/
def tokenizeLine (bds : BMap) (cs : Str) : List Seg :=
  ((splitMarkers cs).map (partContribution bds)).flatten

/-- Concatenation of the `word` texts of a segment list, in emission
order. -/
def segTexts (segs : List Seg) : Str := (segs.map Seg.word).flatten

/-- Join words with single spaces. -/
def joinSpace : List Str → Str
  | [] => []
  | [u] => u
  | u :: rest => u ++ ' ' :: joinSpace rest

/-- The whitespace-normalized form of a line: verse-marker spans are kept
verbatim, every other span between markers is replaced by its
whitespace-delimited units joined with single spaces (so leading and
trailing whitespace of a span disappears, internal whitespace runs
collapse to one space, and whitespace-only spans vanish).  This is what
tokenization actually preserves. -/
def normalizeLine (cs : Str) : Str :=
  ((splitMarkers cs).map
    (fun p => if containsMarker p then p else joinSpace (wsWords p))).flatten

/-!
## Bracket-breakdown extraction (verses-display.tsx 31–56)
-/

/-- Match the breakdown regex `(\S+)\s+\[([^\]]+)\](?:\s*\(\d+\))?` at the
head of `cs`.  Returns `(fullMatch, group1, group2, rest)`.  Greedy runs
over the pairwise-exclusive classes make the match deterministic; the
optional `(\s*\(\d+\))?` group is dropped (zero-width) when its interior
fails. -/
def matchBD (cs : Str) : Option (Str × Str × Str × Str) :=
  let tok := cs.takeWhile (fun c => !jsWS c)
  let r1 := cs.dropWhile (fun c => !jsWS c)
  if tok.isEmpty then none
  else
    let sp := r1.takeWhile jsWS
    let r2 := r1.dropWhile jsWS
    if sp.isEmpty then none
    else
      match r2 with
      | c :: r3 =>
        if c = '[' then
          let inner := r3.takeWhile (fun d => d != ']')
          let r4 := r3.dropWhile (fun d => d != ']')
          if inner.isEmpty then none
          else
            match r4 with
            | d :: r5 =>
              if d = ']' then
                let base := tok ++ sp ++ '[' :: inner ++ [']']
                let sp2 := r5.takeWhile jsWS
                let r6 := r5.dropWhile jsWS
                match r6 with
                | e :: r7 =>
                  if e = '(' then
                    let ds := r7.takeWhile isAsciiDigit
                    let r8 := r7.dropWhile isAsciiDigit
                    if ds.isEmpty then some (base, tok, inner, r5)
                    else
                      match r8 with
                      | f :: r9 =>
                        if f = ')' then
                          some (tok ++ sp ++ '[' :: inner ++ ']' :: sp2 ++ '(' :: ds ++ [')'],
                                tok, inner, r9)
                        else some (base, tok, inner, r5)
                      | [] => some (base, tok, inner, r5)
                  else some (base, tok, inner, r5)
                | [] => some (base, tok, inner, r5)
              else none
            | [] => none
        else none
      | [] => none

/-- `line.matchAll(breakdownPattern)`: successive leftmost matches, each
scan resuming after the previous match.  Fuelled structural recursion;
`fuel = cs.length` suffices since every match consumes at least one
character. -/
def scanBDsF : Nat → Str → List (Str × Str × Str)
  | 0, _ => []
  | Nat.succ fuel, cs =>
    match cs with
    | [] => []
    | c :: rest =>
      match matchBD (c :: rest) with
      | some (full, w, comps, r) => (full, w, comps) :: scanBDsF fuel r
      | none => scanBDsF fuel rest

def scanBDs (cs : Str) : List (Str × Str × Str) := scanBDsF cs.length cs

/-- `word.replace(/[।॥]*$/, '')`: strip the trailing run of danda and
double-danda characters. -/
def stripTrailingDandas (w : Str) : Str :=
  ((w.reverse).dropWhile (fun c => c = '।' || c = '॥')).reverse

/-- Split at every occurrence of a character (JavaScript
`String.prototype.split` with a one-character separator). -/
def splitOnChar (ch : Char) : Str → List Str
  | [] => [[]]
  | c :: rest =>
    match splitOnChar ch rest with
    | [] => []
    | t :: ts => if c = ch then [] :: t :: ts else (c :: t) :: ts

/-- `s.replace(pat, rep)` with a plain-string pattern: replace the first
occurrence only. -/
def replaceFirst (s pat rep : Str) : Str :=
  match s with
  | [] => if pat.isEmpty then rep else []
  | c :: rest =>
    if pat.isPrefixOf (c :: rest) then rep ++ (c :: rest).drop pat.length
    else c :: replaceFirst rest pat rep

/-- The bracket-breakdown pre-pass of `parseWordsFromLine`
(verses-display.tsx 31–56): record `word ↦ components` for every
`word [c1 + c2 + …](n)` match (computed against the original line) and
delete each matched span from the line, keeping the bare word.
`componentsStr.split(/\s*\+\s*/).map(c => c.trim())` equals splitting on
`+` and trimming each piece, which is how it is rendered here. -/
def extractBreakdowns (line : Str) : Str × BMap :=
  (scanBDs line).foldl
    (fun acc m =>
      let fullMatch := m.1
      let wordBeforeBrackets := m.2.1
      let componentsStr := m.2.2
      if fullMatch.isEmpty || wordBeforeBrackets.isEmpty || componentsStr.isEmpty then acc
      else
        let word := stripTrailingDandas wordBeforeBrackets
        let bds :=
          if word.isEmpty then acc.2
          else
            bmapSet acc.2 word
              (((splitOnChar '+' componentsStr).map trimChars).filter (fun c => !c.isEmpty))
        (replaceFirst acc.1 fullMatch wordBeforeBrackets, bds))
    (line, [])

/-- `parseWordsFromLine` (verses-display.tsx 28–107): bracket-breakdown
extraction followed by tokenization of the cleaned line. -/
def parseWordsFromLine (line : Str) : List Seg :=
  tokenizeLine (extractBreakdowns line).2 (extractBreakdowns line).1

/-!
## Commentary resolver (`findCommentary`, verses-display.tsx 112–176)

A commentary source is a JavaScript object `Record<string, string>`,
modelled as an association list in insertion order with unique keys.
Property lookup is first-match; `for … in` enumerates in list order.
`findCommentary` is an early-return ladder, rendered as a chain of
step functions tried in order.
-/

abbrev Src := List (Str × Str)

def srcLookup (k : Str) (src : Src) : Option Str :=
  (src.find? (fun kv => kv.1 == k)).map (·.2)

/-- The global replace of every hyphen character by the empty string. -/
def stripDashes (s : Str) : Str := s.filter (fun c => c != '-')

/-- Step 1 (lines 116–119): the hard-coded Om special case. -/
def omStep (name : Str) : Option Str :=
  if name = "ॐ".data || name = "ओं".data then some "The primordial Sound".data else none

/-- Step 2 (lines 121–124): `if (commentaries[name]) return commentaries[name]` —
truthiness means a key mapped to the empty string is treated as absent. -/
def exactStep (name : Str) (src : Src) : Option Str :=
  match srcLookup name src with
  | some v => if v.isEmpty then none else some v
  | none => none

/-- Truthiness of a JavaScript string-or-undefined: `undefined` and the
empty string are falsy. -/
def truthy : Option Str → Bool
  | some v => !v.isEmpty
  | none => false

/-- Lines 133–158: split on the avagraha into exactly two non-empty parts
and combine the parts' commentaries (both → joined by one space; one →
that one; neither → retry the first part with `अ` appended, combined with
the second part's commentary — a branch that can never fire, since it is
only reached when the second part's commentary is falsy). -/
def avagrahaSplit (name : Str) (src : Src) : Option Str :=
  match splitOnChar 'ऽ' name with
  | [part1, part2] =>
    if part1.isEmpty || part2.isEmpty then none
    else
      let commentary1 := srcLookup part1 src
      let commentary2 := srcLookup part2 src
      if truthy commentary1 && truthy commentary2 then
        some (commentary1.getD [] ++ ' ' :: commentary2.getD [])
      else if truthy commentary1 then commentary1
      else if truthy commentary2 then commentary2
      else
        let commentary1WithA := srcLookup (part1 ++ "अ".data) src
        if truthy commentary1WithA && truthy commentary2 then
          some (commentary1WithA.getD [] ++ ' ' :: commentary2.getD [])
        else none
  | _ => none

/-- Steps 3–4 (lines 126–159): the avagraha block.  Replace `ऽ` by `अ` and
retry the truthiness-guarded exact lookup; otherwise attempt the
split-and-combine of `avagrahaSplit`.  When nothing in the block returns,
control falls through to the dash steps. -/
def avagrahaStep (name : Str) (src : Src) : Option Str :=
  if name.contains 'ऽ' then
    let nameWithA := name.map (fun c => if c = 'ऽ' then 'अ' else c)
    match srcLookup nameWithA src with
    | some v => if v.isEmpty then avagrahaSplit name src else some v
    | none => avagrahaSplit name src
  else none

/-- Step 5 (lines 161–165): strip all hyphens from the name and retry the
exact (truthiness-guarded) lookup. -/
def hyphenStep (name : Str) (src : Src) : Option Str :=
  match srcLookup (stripDashes name) src with
  | some v => if v.isEmpty then none else some v
  | none => none

/-- Step 6 (lines 167–173): linear scan of every key in insertion order,
comparing dash-stripped key to dash-stripped name.  The returned value is
NOT truthiness-guarded (`return commentaries[key] ?? null`), so this step
can return the empty string. -/
def scanStep (name : Str) (src : Src) : Option Str :=
  (src.find? (fun kv => stripDashes kv.1 == stripDashes name)).map (·.2)

/-- `findCommentary` (verses-display.tsx 112–176): the fallback ladder,
short-circuiting at the first step that returns. -/
def findCommentary (name : Str) (src : Src) : Option Str :=
  match omStep name with
  | some r => some r
  | none =>
    match exactStep name src with
    | some r => some r
    | none =>
      match avagrahaStep name src with
      | some r => some r
      | none =>
        match hyphenStep name src with
        | some r => some r
        | none => scanStep name src

/-!
## Multi-source word annotator (`VersesDisplay`, part_001 330–403)

Builds `wordToCommentaryMap`: a map from `word-<lineIndex>-<wordIndex>`
(rendered here as the pair `(lineIndex, wordIndex)`, from which the
string key is recoverable) to the word and its per-source commentary
texts.  `wordIndex` is the index of the item in the parsed segment
array — separators and punctuation occupy positions too.
-/

def litPrefix (pat : Str) (cs : Str) : Option Str :=
  if pat.isPrefixOf cs then some (cs.drop pat.length) else none

/-- `\s+`: require at least one whitespace character and consume the
maximal run. -/
def wsPlus (cs : Str) : Option Str :=
  if (cs.takeWhile jsWS).isEmpty then none else some (cs.dropWhile jsWS)

/-- The concluding-colophon pattern
`एवं\s+श्रीललिता\s+देव्या\s+नाम्नां\s+साहस्रकं\s+जगुः` matched at the head of
`cs`. -/
def concludingAt (cs : Str) : Bool :=
  ((litPrefix "एवं".data cs).bind wsPlus
    |>.bind (litPrefix "श्रीललिता".data) |>.bind wsPlus
    |>.bind (litPrefix "देव्या".data) |>.bind wsPlus
    |>.bind (litPrefix "नाम्नां".data) |>.bind wsPlus
    |>.bind (litPrefix "साहस्रकं".data) |>.bind wsPlus
    |>.bind (litPrefix "जगुः".data)).isSome

/-- `concludingLinePattern.test(line)`: unanchored search. -/
def containsConcluding : Str → Bool
  | [] => false
  | c :: rest => concludingAt (c :: rest) || containsConcluding rest

/-- One annotated word of `wordToCommentaryMap`. -/
structure WordEntry where
  word : Str
  commentariesBySource : List (Str × Str)
  breakdownComponents : Option (List Str) := none
deriving DecidableEq, Repr

/-- The component loop (part_001 356–365): resolve each breakdown
component against one source, keeping `(sanskrit, meaning)` pairs for the
truthy results, in component order. -/
def componentEntries (src : Src) : List Str → List (Str × Str)
  | [] => []
  | component :: rest =>
    match findCommentary component src with
    | some m =>
      if m.isEmpty then componentEntries src rest
      else (component, m) :: componentEntries src rest
    | none => componentEntries src rest

def intercalateL (sep : Str) : List Str → Str
  | [] => []
  | [x] => x
  | x :: rest => x ++ sep ++ intercalateL sep rest

/-- Part_001 367–374: if at least one component resolved, join the
`"<component>\n<meaning>"` blocks with a blank-line separator. -/
def componentCommentary (src : Src) (comps : List Str) : Option Str :=
  let entries := componentEntries src comps
  if entries.isEmpty then none
  else some (intercalateL "\n\n".data (entries.map (fun e => e.1 ++ '\n' :: e.2)))

/-- Part_001 385–392: plain per-source lookup of a word without breakdown
components; only truthy results are recorded. -/
def wordEntryRegular (sources : List (Str × Src)) (item : Seg) : Option WordEntry :=
  let cbs := sources.filterMap (fun sn =>
    match findCommentary item.word sn.2 with
    | some t => if t.isEmpty then none else some (sn.1, t)
    | none => none)
  if cbs.isEmpty then none else some { word := item.word, commentariesBySource := cbs }

/-- Part_001 352–400: a word with a non-empty breakdown component list
uses the component aggregation per source; otherwise the regular lookup.
The word is recorded only if some source produced a commentary. -/
def wordEntryFor (sources : List (Str × Src)) (item : Seg) : Option WordEntry :=
  match item.breakdownComponents with
  | some comps =>
    if comps.isEmpty then wordEntryRegular sources item
    else
      let cbs := sources.filterMap (fun sn => (componentCommentary sn.2 comps).map ((sn.1, ·)))
      if cbs.isEmpty then none
      else some { word := item.word, commentariesBySource := cbs,
                  breakdownComponents := some comps }
  | none => wordEntryRegular sources item

/-- `wordToCommentaryMap` (part_001 333–403): blank lines and the
concluding colophon line are skipped; every other line is parsed and each
word segment with at least one per-source commentary is recorded under
`(lineIndex, wordIndex)`. -/
def wordToCommentaryMap (sources : List (Str × Src)) (lines : List Str) :
    List ((Nat × Nat) × WordEntry) :=
  (lines.enum).flatMap (fun ll =>
    if (trimChars ll.2).isEmpty then []
    else if containsConcluding ll.2 then []
    else
      (parseWordsFromLine ll.2).enum.filterMap (fun iw =>
        if iw.2.isWord then
          (wordEntryFor sources iw.2).map (fun e => ((ll.1, iw.1), e))
        else none))

/-!
## Structured document extractor (part_005)

Parses `# NAME <n>` markdown blocks into `NameEntry` records.  The
etymology prose parser (`parseEtymology`) and the per-compound merge are
not modelled: no verified claim concerns the etymology field, and it is
dropped from the record here.  String case folding models JavaScript
`toLowerCase` on the ASCII range, the only range the compared patterns
use.
-/

def asciiLower (c : Char) : Char :=
  if 'A' ≤ c && c ≤ 'Z' then Char.ofNat (c.toNat + 32) else c

/-- Case-insensitive literal prefix match (ASCII fold). -/
def litCIPrefix (pat : Str) (cs : Str) : Option Str :=
  if (pat.map asciiLower).isPrefixOf (cs.map asciiLower) then some (cs.drop pat.length)
  else none

def ciPrefix (pat : Str) (cs : Str) : Bool := (litCIPrefix pat cs).isSome

/-- `trimEmptyEdges` (part_005 17–23): drop blank lines at both ends. -/
def trimEmptyEdges (lines : List Str) : List Str :=
  ((lines.dropWhile (fun l => (trimChars l).isEmpty)).reverse.dropWhile
      (fun l => (trimChars l).isEmpty)).reverse

def digitsToNat (ds : Str) : Nat :=
  ds.foldl (fun a c => 10 * a + (c.toNat - '0'.toNat)) 0

/-!
### Markdown tables (`parseMarkdownTable`, part_005 29–64)
-/

/-- Collect the trimmed lines starting with `|`, stopping at the first
non-table line after the table has begun (lines before the table are
skipped). -/
def collectTableLines : List Str → Bool → List Str
  | [], _ => []
  | l :: rest, seen =>
    let t := trimChars l
    if ("|".data).isPrefixOf t then t :: collectTableLines rest true
    else if seen then []
    else collectTableLines rest seen

/-- The separator-row test `!^\|\s*-+!`. -/
def isTableSep (l : Str) : Bool :=
  (("|".data).isPrefixOf l) &&
    !(((l.drop 1).dropWhile jsWS).takeWhile (fun c => c = '-')).isEmpty

/-- `row.slice(1, -1).split('|').map((c) => c.trim())`. -/
def splitRow (row : Str) : List Str :=
  ((splitOnChar '|' ((row.drop 1).dropLast)).map trimChars)

abbrev Row := List (Str × Str)

def assocSet {α : Type} : List (Str × α) → Str → α → List (Str × α)
  | [], k, v => [(k, v)]
  | kv :: rest, k, v => if kv.1 == k then (k, v) :: rest else kv :: assocSet rest k v

def rowGet (row : Row) (k : Str) : Option Str :=
  (row.find? (fun kv => kv.1 == k)).map (·.2)

/-- `headers.forEach((h, i) => { obj[h || `col_${i+1}`] = cells[i] ?? '' })`. -/
def buildRow (headers : List Str) (cells : List Str) : Row :=
  (headers.enum).foldl
    (fun obj hi =>
      let key := if hi.2.isEmpty then "col_".data ++ Nat.toDigits 10 (hi.1 + 1) else hi.2
      assocSet obj key (cells.getD hi.1 []))
    []

structure MDTable where
  headers : List Str
  rows : List Row
deriving DecidableEq, Repr

def parseMarkdownTable (lines : List Str) : MDTable :=
  let tableLines := collectTableLines lines false
  if tableLines.isEmpty then { headers := [], rows := [] }
  else
    let cleaned := tableLines.filter (fun l => !isTableSep l)
    match cleaned with
    | [] => { headers := [], rows := [] }
    | headerRow :: rest =>
      let headers := splitRow headerRow
      { headers, rows := rest.map (fun r => buildRow headers (splitRow r)) }

/-!
### Root analysis (`parseRootAnalysis`, part_005 125–152)
-/

structure RootRow where
  compound : Str
  sandhi : Option Str
  components : List Str
  grammar : Option Str
  literal : Str
  contextual : Str
deriving DecidableEq, Repr

/-- The truthiness chain `row['A'] || row['a'] || ''`. -/
def firstTruthy : List (Option Str) → Str
  | [] => []
  | o :: rest =>
    match o with
    | some v => if v.isEmpty then firstTruthy rest else v
    | none => firstTruthy rest

def isQuoteChar (c : Char) : Bool :=
  c = '“' || c = '”' || c = '"' || c = Char.ofNat 39

def parseRootAnalysis (rootLines : List Str) : List RootRow :=
  let table := parseMarkdownTable rootLines
  if table.rows.isEmpty then []
  else
    table.rows.map (fun row =>
      let compound := firstTruthy [rowGet row "Compound".data, rowGet row "compound".data]
      let sandhiRaw := firstTruthy [rowGet row "Sandhi".data, rowGet row "sandhi".data]
      let componentsRaw :=
        firstTruthy [rowGet row "Components".data, rowGet row "components".data]
      let grammarRaw := firstTruthy [rowGet row "Grammar".data, rowGet row "grammar".data]
      let literalRaw :=
        firstTruthy [rowGet row "Literal".data, rowGet row "Literal Meaning".data,
          rowGet row "literal".data, rowGet row "literal meaning".data]
      let contextualRaw :=
        firstTruthy [rowGet row "Contextual".data, rowGet row "Contextual Meaning".data,
          rowGet row "contextual".data, rowGet row "contextual meaning".data]
      let sandhi :=
        if !sandhiRaw.isEmpty && trimChars sandhiRaw ≠ "—".data &&
            trimChars sandhiRaw ≠ "-".data then
          some (trimChars sandhiRaw)
        else none
      let components :=
        ((splitOnChar '+' componentsRaw).map
            (fun s => trimChars (s.filter (fun c => !isQuoteChar c)))).filter
          (fun c => !c.isEmpty)
      let grammar :=
        if !grammarRaw.isEmpty && !(trimChars grammarRaw).isEmpty then
          some (trimChars grammarRaw)
        else none
      { compound := trimChars compound, sandhi, components, grammar,
        literal := trimChars literalRaw, contextual := trimChars contextualRaw })

/-!
### Compositions (`parseCompositions`, part_005 158–213)
-/

structure CompEntry where
  word : Str
  meaning : Str
deriving DecidableEq, Repr

structure CompResult where
  overview : Str
  entries : List CompEntry
deriving DecidableEq, Repr

/-- Replace every whitespace run of length at least two by one space
(the global replace of two-or-more whitespace by a single space);
single whitespace characters are left alone. -/
def collapseWsF : Nat → Str → Str
  | 0, _ => []
  | _, [] => []
  | Nat.succ fuel, c :: rest =>
    if jsWS c && !(rest.takeWhile jsWS).isEmpty then
      ' ' :: collapseWsF fuel (rest.dropWhile jsWS)
    else c :: collapseWsF fuel rest

def collapseWs (cs : Str) : Str := collapseWsF cs.length cs

def isDashChar (c : Char) : Bool := c = '—' || c = '–' || c = '-'

/-- The lazy scan of `^\*\s+\*\*(.+?)\*\*\s*[—–-]\s*(.+)$` after the
leading `*`, whitespace and `**` have been consumed: at each position try
to close the lazy group with `**\s*[—–-]\s*(.+)$`; on failure grow the
group by one character. -/
def boldBulletScan (acc : Str) : Str → Option (Str × Str)
  | [] => none
  | c :: rest =>
    match
      (if acc.isEmpty then none
       else
         (litPrefix "**".data (c :: rest)).bind (fun r =>
           let r2 := r.dropWhile jsWS
           match r2 with
           | d :: r3 =>
             if isDashChar d then
               let r4 := r3.dropWhile jsWS
               if r4.isEmpty then none else some (acc.reverse, r4)
             else none
           | [] => none)) with
    | some p => some p
    | none => boldBulletScan (c :: acc) rest

/-- `^\*\s+\*\*(.+?)\*\*\s*[—–-]\s*(.+)$` applied to a trimmed bullet
line: returns `(group1, group2)`. -/
def boldBulletMatch (t : Str) : Option (Str × Str) :=
  ((litPrefix "*".data t).bind wsPlus |>.bind (litPrefix "**".data)).bind
    (boldBulletScan [])

/-- `^\*\s+([^—–-]+)[—–-]\s*(.+)$` applied to a trimmed bullet line. -/
def plainBulletMatch (t : Str) : Option (Str × Str) :=
  ((litPrefix "*".data t).bind wsPlus).bind (fun rest =>
    let body := rest.takeWhile (fun c => !isDashChar c)
    let r := rest.dropWhile (fun c => !isDashChar c)
    if body.isEmpty then none
    else
      match r with
      | _ :: r2 =>
        let r3 := r2.dropWhile jsWS
        if r3.isEmpty then none else some (body, r3)
      | [] => none)

/-- The first-match replace of `^\*\s+\*\*|\*\*$` by the empty string. -/
def stripBulletBold (t : Str) : Str :=
  match (litPrefix "*".data t).bind wsPlus |>.bind (litPrefix "**".data) with
  | some rest => rest
  | none => if ("**".data).isSuffixOf t then t.take (t.length - 2) else t

/-- Part_005 195–210: parse one bullet line (already trimmed). -/
def parseBullet (trimmed : Str) : CompEntry :=
  match boldBulletMatch trimmed with
  | some (w, mm) => { word := trimChars w, meaning := trimChars mm }
  | none =>
    match plainBulletMatch trimmed with
    | some (w2, mm2) => { word := trimChars w2, meaning := trimChars mm2 }
    | none => { word := trimChars (stripBulletBold trimmed), meaning := [] }

/-- The test `^\*\s+` on a trimmed line. -/
def isBulletLine (t : Str) : Bool := ((litPrefix "*".data t).bind wsPlus).isSome

/-- The test `^\*\*Word-by-word meaning\*\*`, case-insensitive, on a
trimmed line. -/
def isWordByWordMarker (l : Str) : Bool :=
  ciPrefix "**Word-by-word meaning**".data (trimChars l)

def parseCompositions (compLines : List Str) : CompResult :=
  if compLines.isEmpty then { overview := [], entries := [] }
  else
    let wordByWordIndex := compLines.findIdx? isWordByWordMarker
    let summaryLines :=
      match wordByWordIndex with
      | some i => compLines.take i
      | none => compLines
    let bulletLines :=
      match wordByWordIndex with
      | some i => compLines.drop (i + 1)
      | none => []
    let prose := summaryLines.filterMap (fun line =>
      let trimmed := trimChars line
      if !trimmed.isEmpty &&
          !(match trimmed with
            | c :: _ => c = '*' || c = '#' || c = '-' || c = '>' || c = '|'
            | [] => false) &&
          !(litPrefix "**Word-by-word".data trimmed).isSome then
        some trimmed
      else none)
    let overview := trimChars (collapseWs (intercalateL " ".data prose))
    let entries :=
      (bulletLines.filter (fun l => isBulletLine (trimChars l))).map
        (fun b => parseBullet (trimChars b))
    { overview, entries }

/-!
### Commentary sections (part_005 219–302)
-/

structure Commentary where
  author : Str
  period : Str
  text : Str
  source : Str
deriving DecidableEq, Repr

/-- Strip a blockquote marker: the replace of `^>\s?` (a `>` and at most
one whitespace character) by the empty string. -/
def stripBqLine (l : Str) : Str :=
  if (">".data).isPrefixOf l then
    let r := l.drop 1
    match r with
    | c :: r2 => if jsWS c then r2 else r
    | [] => r
  else l

/-- `stripBlockquote` (part_005 219–221). -/
def stripBlockquote (lines : List Str) : Str :=
  intercalateL "\n".data (lines.map stripBqLine)

/-- `parseCommentary` (part_005 230–233). -/
def parseCommentary (lines : List Str) (author period source : Str) : Commentary :=
  { author, period, text := stripBlockquote (trimEmptyEdges lines), source }

/-- `getSourceMetadata` (part_005 240–258): the fixed table of known
sources, defaulting to the source name itself with period `Unknown`. -/
def getSourceMetadata (source : Str) : Str × Str :=
  let sourceLower := (source.map asciiLower).filter (fun c => !jsWS c)
  if sourceLower = "sanskritdocuments".data then ("Sanskrit Documents".data, "Modern".data)
  else if sourceLower = "bhaskaraya".data then ("Bhāskararāya".data, "18th century".data)
  else if sourceLower = "vravi".data then ("V. Ravi".data, "Modern".data)
  else (source, "Unknown".data)

/-- The capture of `^##\s+COMMENTARIES\s*\(([^)]+)\)`, case-insensitive,
on a trimmed line: the text between the parentheses. -/
def commentariesHeaderCapture (t : Str) : Option Str :=
  ((litPrefix "##".data t).bind wsPlus |>.bind (litCIPrefix "COMMENTARIES".data)).bind
    (fun r =>
      match litPrefix "(".data (r.dropWhile jsWS) with
      | some r2 =>
        let cap := r2.takeWhile (fun c => c != ')')
        if cap.isEmpty then none
        else
          match r2.dropWhile (fun c => c != ')') with
          | c3 :: _ => if c3 = ')' then some cap else none
          | [] => none
      | none => none)

/-- The first-match replace of `^>\s*\*\*[^*]+\*\*\s*—\s*` by the empty
string (part_005 281): strips a leading `> **name** — ` prefix when the
whole pattern matches, otherwise leaves the line unchanged. -/
def stripNameDashPrefix (t : Str) : Str :=
  match
    ((litPrefix ">".data t).bind (fun r => litPrefix "**".data (r.dropWhile jsWS))).bind
      (fun r3 =>
        let namePart := r3.takeWhile (fun c => c != '*')
        if namePart.isEmpty then none
        else
          ((litPrefix "**".data (r3.dropWhile (fun c => c != '*'))).bind (fun r5 =>
            (litPrefix "—".data (r5.dropWhile jsWS)).map (fun r7 => r7.dropWhile jsWS))))
  with
  | some rest => rest
  | none => t

/-- The replace of `^>\s*` by the empty string. -/
def stripGtStar (t : Str) : Str :=
  if (">".data).isPrefixOf t then (t.drop 1).dropWhile jsWS else t

/-- `parseCommentariesSection` (part_005 265–302). -/
def parseCommentariesSection (lines : List Str) : Option Commentary :=
  if lines.isEmpty then none
  else
    match commentariesHeaderCapture (trimChars (lines.headD [])) with
    | none => none
    | some cap =>
      let sourceName := trimChars cap
      let commentLines := lines.drop 1
      let commentaryText :=
        intercalateL " ".data
          (commentLines.filterMap (fun line =>
            let trimmed := trimChars line
            if (">".data).isPrefixOf trimmed then
              let cleanLine := trimChars (stripGtStar (stripNameDashPrefix trimmed))
              if cleanLine.isEmpty then none else some cleanLine
            else none))
      let meta := getSourceMetadata sourceName
      some { author := meta.1, period := meta.2, text := trimChars commentaryText,
             source := sourceName }

/-!
### Name lines (`parseNameLines`, part_005 308–336)
-/

structure NLRes where
  devanagari : Str
  iast : Str
  nameNumber : Option Nat
deriving DecidableEq, Repr

/-- Match `॥\s*(\d+)\s*॥` (ASCII digits only) at the head of `cs`. -/
def nameNumAt (cs : Str) : Option Nat :=
  match cs with
  | c :: r =>
    if c = '॥' then
      let r1 := r.dropWhile jsWS
      let ds := r1.takeWhile isAsciiDigit
      if ds.isEmpty then none
      else
        let r3 := (r1.dropWhile isAsciiDigit).dropWhile jsWS
        match r3 with
        | d :: _ => if d = '॥' then some (digitsToNat ds) else none
        | [] => none
    else none
  | [] => none

/-- Unanchored leftmost search for `॥\s*(\d+)\s*॥`. -/
def searchNameNum : Str → Option Nat
  | [] => none
  | c :: rest =>
    match nameNumAt (c :: rest) with
    | some n => some n
    | none => searchNameNum rest

def isAsciiLetter (c : Char) : Bool :=
  ('a' ≤ c && c ≤ 'z') || ('A' ≤ c && c ≤ 'Z')

/-- The first-character class `[a-zA-Zāīūṛēōṃḥśṣṇṭḍ]` with the `i` flag
(so the upper-case forms of the accented letters match too). -/
def iastStart (l : Str) : Bool :=
  match l with
  | c :: _ =>
    isAsciiLetter c ||
      [ 'ā', 'ī', 'ū', 'ṛ', 'ē', 'ō', 'ṃ', 'ḥ', 'ś', 'ṣ', 'ṇ', 'ṭ', 'ḍ',
        'Ā', 'Ī', 'Ū', 'Ṛ', 'Ē', 'Ō', 'Ṃ', 'Ḥ', 'Ś', 'Ṣ', 'Ṇ', 'Ṭ', 'Ḍ' ].contains c
  | [] => false

def stripDandaChars (l : Str) : Str := l.filter (fun c => !(c = '।' || c = '॥'))

/-- `parseNameLines`: one pass over the (blockquote-stripped, trimmed)
name lines.  A verse-marker line sets the name number (later markers
overwrite earlier ones); the first Latin-initial line is the IAST form;
the first other non-empty line not starting with `॥` or `|` is the
Devanagari form. -/
def parseNameLines (nameLinesRaw : List Str) : NLRes :=
  nameLinesRaw.foldl
    (fun st line0 =>
      let line := trimChars (stripGtStar line0)
      match searchNameNum line with
      | some n => { st with nameNumber := some n }
      | none =>
        let isIAST := iastStart line
        if isIAST && st.iast.isEmpty then
          { st with iast := trimChars (stripDandaChars line) }
        else if !isIAST && !line.isEmpty &&
            !(match line with
              | c :: _ => c = '॥' || c = '|'
              | [] => false) &&
            st.devanagari.isEmpty then
          { st with devanagari := trimChars (stripDandaChars line) }
        else st)
    { devanagari := [], iast := [], nameNumber := none }

/-!
### Block parsing (`parseNameBlock`, part_005 536–695)
-/

/-- `findIndex(lines, pred, from)`: first index at or after `from` whose
line satisfies the predicate (`none` models the `-1` sentinel). -/
def findIndexFrom (p : Str → Bool) (lines : List Str) (start : Nat) : Option Nat :=
  ((lines.enum).find? (fun il => start ≤ il.1 && p il.2)).map (·.1)

/-- `^#\s+NAME\s+(\d+)`, case-insensitive, on the trimmed title line. -/
def parseTitle (titleLine : Str) : Option Nat :=
  ((litPrefix "#".data (trimChars titleLine)).bind wsPlus
    |>.bind (litCIPrefix "NAME".data) |>.bind wsPlus).bind
    (fun r =>
      let ds := r.takeWhile isAsciiDigit
      if ds.isEmpty then none else some (digitsToNat ds))

def isRootHeader (l : Str) : Bool :=
  ((litPrefix "##".data (trimChars l)).bind wsPlus
    |>.bind (litCIPrefix "ROOT".data) |>.bind wsPlus
    |>.bind (litCIPrefix "BREAKDOWN".data)).isSome

def isEtymologyHeader (l : Str) : Bool :=
  (((litPrefix "##".data (trimChars l)).bind wsPlus
    |>.bind (litCIPrefix "ETYMOLOGY".data)).bind
    (fun r => litPrefix "(".data (r.dropWhile jsWS))).isSome

def isCompHeader (l : Str) : Bool :=
  ((litPrefix "##".data (trimChars l)).bind wsPlus
    |>.bind (litCIPrefix "COMPOSITIONS".data)).isSome

/-- `^##\s+COMMENTARY\s*\(`: the shared opening of the two fixed
commentary-header patterns; returns the remainder after the `(`. -/
def commentaryOpen (t : Str) : Option Str :=
  ((litPrefix "##".data t).bind wsPlus |>.bind (litCIPrefix "COMMENTARY".data)).bind
    (fun r => litPrefix "(".data (r.dropWhile jsWS))

/-- Leftmost case-insensitive substring search; returns the remainder
after the first occurrence. -/
def findCISub (pat : Str) : Str → Option Str
  | [] => if pat.isEmpty then some [] else none
  | c :: rest =>
    if ciPrefix pat (c :: rest) then some ((c :: rest).drop pat.length)
    else findCISub pat rest

/-- `^##\s+COMMENTARY\s*\(.*BH.*SKARAR.*YA`, case-insensitive: the
wildcards make the test an ordered substring search after the `(`. -/
def isBhHeader (l : Str) : Bool :=
  (((commentaryOpen (trimChars l)).bind (findCISub "BH".data)
    |>.bind (findCISub "SKARAR".data) |>.bind (findCISub "YA".data))).isSome

/-- `V\.?\s*RAVI` matched at the head of `cs` (the optional dot tried
first, as the greedy `\.?` does). -/
def vraviAt (cs : Str) : Bool :=
  match cs with
  | c :: r =>
    asciiLower c = 'v' &&
      ((match r with
        | d :: r2 => d = '.' && ciPrefix "RAVI".data (r2.dropWhile jsWS)
        | [] => false) ||
        ciPrefix "RAVI".data (r.dropWhile jsWS))
  | [] => false

def vraviSearch : Str → Bool
  | [] => false
  | c :: rest => vraviAt (c :: rest) || vraviSearch rest

/-- `^##\s+COMMENTARY\s*\(.*V\.?\s*RAVI`, case-insensitive. -/
def isVRHeader (l : Str) : Bool :=
  match commentaryOpen (trimChars l) with
  | some r => vraviSearch r
  | none => false

def isCommentariesHeader (l : Str) : Bool :=
  (commentariesHeaderCapture (trimChars l)).isSome

def startsHashHash (l : Str) : Bool := ("##".data).isPrefixOf (trimChars l)

def idxRootOf (b : List Str) : Option Nat := findIndexFrom isRootHeader b 0
def idxEtymologyOf (b : List Str) : Option Nat := findIndexFrom isEtymologyHeader b 0
def idxCompOf (b : List Str) : Option Nat := findIndexFrom isCompHeader b 0
def idxBhOf (b : List Str) : Option Nat := findIndexFrom isBhHeader b 0
def idxVROf (b : List Str) : Option Nat := findIndexFrom isVRHeader b 0

/-- `blockLines.slice(a, b)`. -/
def sliceBetween (lines : List Str) (a b : Nat) : List Str := (lines.drop a).take (b - a)

/-- The `COMMENTARIES` while-loop (part_005 559–583): find each
`## COMMENTARIES (…)` header, slice to the next `##` line (or the end of
the block), parse it, and continue from there.  Fuelled: each iteration
strictly advances the scan position, so `b.length + 1` iterations
suffice. -/
def collectCSF (b : List Str) : Nat → Nat → List Commentary
  | 0, _ => []
  | Nat.succ fuel, start =>
    match findIndexFrom isCommentariesHeader b start with
    | some cur =>
      let endIdx := (findIndexFrom startsHashHash b (cur + 1)).getD b.length
      match parseCommentariesSection (sliceBetween b cur endIdx) with
      | some parsed => parsed :: collectCSF b fuel endIdx
      | none => collectCSF b fuel endIdx
    | none => []

def collectCS (b : List Str) : List Commentary := collectCSF b (b.length + 1) 0

def nameEndOf (b : List Str) : Nat :=
  match idxRootOf b with
  | some i => i
  | none =>
    match idxEtymologyOf b with
    | some i => i
    | none => (idxCompOf b).getD b.length

def nameLinesRawOf (b : List Str) : List Str :=
  trimEmptyEdges (sliceBetween b 1 (nameEndOf b))

def rootEndOf (b : List Str) : Nat :=
  match idxEtymologyOf b with
  | some e => e
  | none => (idxCompOf b).getD b.length

def rootLinesOf (b : List Str) : List Str :=
  match idxRootOf b with
  | some i => trimEmptyEdges (sliceBetween b (i + 1) (rootEndOf b))
  | none => []

def compLinesOf (b : List Str) : List Str :=
  match idxCompOf b with
  | some i => trimEmptyEdges (sliceBetween b (i + 1) ((idxBhOf b).getD b.length))
  | none => []

def bhLinesOf (b : List Str) : List Str :=
  match idxBhOf b with
  | some i => trimEmptyEdges (sliceBetween b (i + 1) ((idxVROf b).getD b.length))
  | none => []

def vrLinesOf (b : List Str) : List Str :=
  match idxVROf b with
  | some i => trimEmptyEdges (sliceBetween b (i + 1) b.length)
  | none => []

/-- `stripPunctuationToken` (part_005 107–109). -/
def stripPunctuationToken (t : Str) : Str := trimChars (stripDandaChars t)

/-- `tokenizeName` (part_005 115–119). -/
def tokenizeName (devanagari : Str) : List Str :=
  if devanagari.isEmpty then []
  else ((splitWsChar devanagari).map stripPunctuationToken).filter (fun t => !t.isEmpty)

structure NameInfo where
  devanagari : Str
  iast : Str
  tokens : List Str
deriving DecidableEq, Repr

structure Meaning where
  literal : Str
  contextual : Str
deriving DecidableEq, Repr

structure RBEntry where
  compound : Str
  sandhi : Option Str
  components : List Str
  grammar : Option Str
  meaning : Meaning
deriving DecidableEq, Repr

structure WBW where
  compound : Str
  meaning : Str
deriving DecidableEq, Repr

structure Compositions where
  summary : Str
  wordByWord : List WBW
deriving DecidableEq, Repr

/-- The extractor's per-block record.  The `etymology` field of the
source record is not modelled (see the section comment). -/
structure NameEntry where
  nameNumber : Option Nat
  name : NameInfo
  rootBreakdown : List RBEntry
  compositions : Compositions
  commentaries : List (Str × Commentary)
deriving DecidableEq, Repr

/-- `parseNameBlock` (part_005 536–695), minus the etymology merge. -/
def parseNameBlock (b : List Str) : NameEntry :=
  let titleNum := parseTitle (b.headD [])
  let nl := parseNameLines (nameLinesRawOf b)
  let nameNumber :=
    match nl.nameNumber with
    | some k => some k
    | none => titleNum
  let rootAnalysis := parseRootAnalysis (rootLinesOf b)
  let comp := parseCompositions (compLinesOf b)
  { nameNumber,
    name := { devanagari := nl.devanagari, iast := nl.iast,
              tokens := tokenizeName nl.devanagari },
    rootBreakdown := rootAnalysis.map (fun r =>
      { compound := r.compound, sandhi := r.sandhi, components := r.components,
        grammar := r.grammar,
        meaning := { literal := r.literal, contextual := r.contextual } }),
    compositions :=
      { summary := if comp.overview.isEmpty then [] else comp.overview,
        wordByWord := comp.entries.map (fun e =>
          { compound := e.word, meaning := e.meaning }) },
    commentaries :=
      (collectCS b).foldl
        (fun m c =>
          assocSet m ((c.source.map asciiLower).filter (fun ch => !jsWS ch)) c)
        [("bhaskararaya".data,
           parseCommentary (bhLinesOf b) "Bhāskararāya".data "18th century".data
             "Saubhāgya-bhāskara".data),
         ("vRavi".data,
           parseCommentary (vrLinesOf b) "V. Ravi".data "Modern".data
             "Contemporary Translation".data)] }

/-!
### Corpus assembly (`main`, part_005 716–736)
-/

/-- The block splitter of `main`: a line starting with `# NAME ` begins a
new block; the (possibly empty) run of lines before the first such line
forms a block of its own when non-empty. -/
def splitBlocksAux : List Str → List Str → List (List Str)
  | [], current => if current.isEmpty then [] else [current]
  | l :: rest, current =>
    if ("# NAME ".data).isPrefixOf l then
      (if current.isEmpty then [] else [current]) ++ splitBlocksAux rest [l]
    else splitBlocksAux rest (current ++ [l])

def splitBlocks (lines : List Str) : List (List Str) := splitBlocksAux lines []

def entryKey (e : NameEntry) : Nat := e.nameNumber.getD 0

def entryLe (a b : NameEntry) : Prop := entryKey a ≤ entryKey b

instance : DecidableRel entryLe := fun a b => Nat.decLe (entryKey a) (entryKey b)

instance : IsTotal NameEntry entryLe := ⟨fun a b => Nat.le_total (entryKey a) (entryKey b)⟩

instance : IsTrans NameEntry entryLe :=
  ⟨fun _ _ _ hab hbc => Nat.le_trans hab hbc⟩

/-- `names.sort((a, b) => (a.nameNumber ?? 0) - (b.nameNumber ?? 0))`:
a stable ascending sort by `nameNumber ?? 0`.  A stable sort by a total
preorder has a unique result, and insertion sort is stable, so insertion
sort models the JavaScript sort exactly. -/
def sortNames (names : List NameEntry) : List NameEntry :=
  List.insertionSort entryLe names

/-- The corpus pipeline of `main` on the already-split input lines:
blocks, per-block parsing, sort. -/
def extractCorpus (lines : List Str) : List NameEntry :=
  sortNames ((splitBlocks lines).map parseNameBlock)

/-!
## Helper lemmas
-/

theorem segTexts_append (a b : List Seg) : segTexts (a ++ b) = segTexts a ++ segTexts b := by
  simp [segTexts]

theorem segTexts_cons (s : Seg) (l : List Seg) : segTexts (s :: l) = s.word ++ segTexts l := by
  simp [segTexts]

theorem dandaSplit_append (u : Str) : (dandaSplit u).1 ++ (dandaSplit u).2 = u := by
  unfold dandaSplit
  dsimp only
  split <;> exact List.take_append_drop _ _

theorem countTrailingDanda_le (u : Str) : countTrailingDanda u ≤ u.length := by
  unfold countTrailingDanda
  calc ((u.reverse).takeWhile (fun c => c = '।')).length ≤ u.reverse.length :=
        List.Sublist.length_le (List.takeWhile_sublist _)
    _ = u.length := List.length_reverse u

theorem dandaSplit_fst_ne_nil (u : Str) (hu : u ≠ []) : (dandaSplit u).1 ≠ [] := by
  unfold dandaSplit
  dsimp only
  split
  · simpa [List.take_eq_nil_iff] using hu
  · next hk =>
    have hle := countTrailingDanda_le u
    have hlt : countTrailingDanda u < u.length := lt_of_le_of_ne hle hk
    have hpos : 0 < u.length - countTrailingDanda u := Nat.sub_pos_of_lt hlt
    simp [List.take_eq_nil_iff, Nat.pos_iff_ne_zero.mp hpos, hu]

theorem segTexts_emitUnit (bds : BMap) (u : Str) (hu : u ≠ []) :
    segTexts (emitUnit bds u) = u := by
  have happ := dandaSplit_append u
  have hm := dandaSplit_fst_ne_nil u hu
  rcases hb : bmapGet bds (dandaSplit u).1 with _ | comps <;>
    by_cases hp : (dandaSplit u).2.isEmpty = true <;>
      simp_all [emitUnit, segTexts, List.isEmpty_iff]

theorem segTexts_emitWords (bds : BMap) (us : List Str) (h : ∀ u ∈ us, u ≠ []) :
    segTexts (emitWords bds us) = joinSpace us := by
  induction us with
  | nil => simp [emitWords, joinSpace, segTexts]
  | cons u rest ih =>
    cases rest with
    | nil =>
      simp only [emitWords, joinSpace]
      exact segTexts_emitUnit bds u (h u (by simp))
    | cons v rest2 =>
      have hu : u ≠ [] := h u (by simp)
      have hrest : ∀ w ∈ v :: rest2, w ≠ [] := fun w hw => h w (by simp [hw])
      simp only [emitWords, joinSpace]
      rw [segTexts_append, segTexts_cons, segTexts_emitUnit bds u hu, ih hrest]
      simp [sepSeg]

theorem trimChars_eq_nil_all_ws (p : Str) (h : trimChars p = []) : ∀ c ∈ p, jsWS c = true := by
  unfold trimChars at h
  rw [List.reverse_eq_nil_iff, List.dropWhile_eq_nil_iff] at h
  have h2 : ∀ c ∈ p.dropWhile jsWS, jsWS c = true := by
    intro c hc
    exact h c (by simpa using hc)
  intro c hc
  rcases (List.mem_append.mp (by simpa [List.takeWhile_append_dropWhile] using hc :
      c ∈ p.takeWhile jsWS ++ p.dropWhile jsWS)) with h3 | h3
  · exact List.mem_takeWhile_imp h3
  · exact h2 c h3

theorem jsWS_ne_doubleDanda (c : Char) (h : jsWS c = true) : c ≠ '॥' := by
  intro hc
  subst hc
  exact absurd h (by decide)

theorem containsMarker_of_all_ws (p : Str) (h : ∀ c ∈ p, jsWS c = true) :
    containsMarker p = false := by
  induction p with
  | nil => rfl
  | cons c rest ih =>
    have hc : c ≠ '॥' := jsWS_ne_doubleDanda c (h c (by simp))
    have hmm : matchMarker (c :: rest) = none := by
      unfold matchMarker
      simp [hc]
    simp [containsMarker, hmm, ih (fun d hd => h d (by simp [hd]))]

theorem splitWsChar_ne_nil (p : Str) : splitWsChar p ≠ [] := by
  induction p with
  | nil => simp [splitWsChar]
  | cons c rest ih =>
    unfold splitWsChar
    cases h : splitWsChar rest with
    | nil => exact absurd h ih
    | cons t ts =>
      split
      · simp_all
      · split <;> simp

theorem splitWsChar_all_ws (p : Str) (h : ∀ c ∈ p, jsWS c = true) :
    ∀ w ∈ splitWsChar p, w = [] := by
  induction p with
  | nil => intro w hw; simpa [splitWsChar] using hw
  | cons c rest ih =>
    intro w hw
    have hws : jsWS c = true := h c (by simp)
    have ihr := ih (fun d hd => h d (by simp [hd]))
    unfold splitWsChar at hw
    cases h2 : splitWsChar rest with
    | nil => exact absurd h2 (splitWsChar_ne_nil rest)
    | cons t ts =>
      rw [h2] at hw
      simp only [hws, if_true] at hw
      rcases List.mem_cons.mp hw with hw | hw
      · exact hw
      · exact ihr w (h2 ▸ hw)

theorem wsWords_of_all_ws (p : Str) (h : ∀ c ∈ p, jsWS c = true) : wsWords p = [] := by
  unfold wsWords
  rw [List.filter_eq_nil_iff]
  intro w hw
  simp [splitWsChar_all_ws p h w hw]

theorem wsWords_mem_ne_nil (p : Str) : ∀ u ∈ wsWords p, u ≠ [] := by
  intro u hu
  have := List.of_mem_filter hu
  simpa [List.isEmpty_iff] using this

theorem segTexts_partContribution (bds : BMap) (p : Str) :
    segTexts (partContribution bds p) =
      if containsMarker p then p else joinSpace (wsWords p) := by
  unfold partContribution
  by_cases hb : p.isEmpty || (trimChars p).isEmpty
  · rw [if_pos hb]
    have hall : ∀ c ∈ p, jsWS c = true := by
      rcases Bool.or_eq_true_iff.mp hb with h | h
      · intro c hc
        rw [List.isEmpty_iff.mp h] at hc
        simp at hc
      · exact trimChars_eq_nil_all_ws p (List.isEmpty_iff.mp h)
    rw [containsMarker_of_all_ws p hall, wsWords_of_all_ws p hall]
    simp [segTexts, joinSpace]
  · rw [if_neg hb]
    by_cases hm : containsMarker p
    · simp [hm, segTexts]
    · simp only [hm, if_neg, Bool.false_eq_true, if_false]
      exact segTexts_emitWords bds (wsWords p) (wsWords_mem_ne_nil p)

theorem segTexts_flatten_map (bds : BMap) (l : List Str) :
    segTexts ((l.map (partContribution bds)).flatten) =
      (l.map (fun p => if containsMarker p then p else joinSpace (wsWords p))).flatten := by
  induction l with
  | nil => simp [segTexts]
  | cons p ps ih =>
    simp only [List.map_cons, List.flatten_cons, segTexts_append, ih,
      segTexts_partContribution]

theorem omStep_ne_empty (name : Str) : omStep name ≠ some [] := by
  unfold omStep
  split
  · decide
  · simp

theorem exactStep_ne_empty (name : Str) (src : Src) : exactStep name src ≠ some [] := by
  unfold exactStep
  cases srcLookup name src with
  | none => simp
  | some v => cases v <;> simp

theorem hyphenStep_ne_empty (name : Str) (src : Src) : hyphenStep name src ≠ some [] := by
  unfold hyphenStep
  cases srcLookup (stripDashes name) src with
  | none => simp
  | some v => cases v <;> simp

theorem truthy_iff (o : Option Str) : truthy o = true ↔ ∃ v, o = some v ∧ v ≠ [] := by
  cases o with
  | none => simp [truthy]
  | some v => cases v <;> simp [truthy]

theorem avagrahaSplit_ne_empty (name : Str) (src : Src) : avagrahaSplit name src ≠ some [] := by
  intro hcon
  unfold avagrahaSplit at hcon
  split at hcon
  · split at hcon
    · exact absurd hcon (by simp)
    · dsimp only at hcon
      split at hcon
      · simp at hcon
      · split at hcon
        · rename_i htr
          rcases (truthy_iff _).mp htr with ⟨v, hv, hne⟩
          rw [hv] at hcon
          injection hcon with h'
          exact hne h'
        · split at hcon
          · rename_i htr
            rcases (truthy_iff _).mp htr with ⟨v, hv, hne⟩
            rw [hv] at hcon
            injection hcon with h'
            exact hne h'
          · split at hcon
            · simp at hcon
            · exact absurd hcon (by simp)
  · exact absurd hcon (by simp)

theorem avagrahaStep_ne_empty (name : Str) (src : Src) : avagrahaStep name src ≠ some [] := by
  intro hcon
  unfold avagrahaStep at hcon
  split at hcon
  · dsimp only at hcon
    split at hcon
    · split at hcon
      · exact avagrahaSplit_ne_empty name src hcon
      · rename_i v hv
        injection hcon with h'
        subst h'
        simp at hv
    · exact avagrahaSplit_ne_empty name src hcon
  · exact absurd hcon (by simp)

theorem scanStep_mem (name : Str) (src : Src) (v : Str) (h : scanStep name src = some v) :
    ∃ kv ∈ src, kv.2 = v := by
  unfold scanStep at h
  cases hf : src.find? (fun kv => stripDashes kv.1 == stripDashes name) with
  | none => rw [hf] at h; simp at h
  | some kv =>
    rw [hf] at h
    simp only [Option.map_some', Option.some.injEq] at h
    exact ⟨kv, List.mem_of_find?_eq_some hf, h⟩

theorem findCommentary_ne_empty (name : Str) (src : Src)
    (hsrc : ∀ kv ∈ src, kv.2 ≠ ([] : Str)) : findCommentary name src ≠ some [] := by
  intro hcon
  unfold findCommentary at hcon
  split at hcon
  · rename_i r heq
    injection hcon with h'
    subst h'
    exact absurd heq (omStep_ne_empty name)
  · split at hcon
    · rename_i r heq
      injection hcon with h'
      subst h'
      exact absurd heq (exactStep_ne_empty name src)
    · split at hcon
      · rename_i r heq
        injection hcon with h'
        subst h'
        exact absurd heq (avagrahaStep_ne_empty name src)
      · split at hcon
        · rename_i r heq
          injection hcon with h'
          subst h'
          exact absurd heq (hyphenStep_ne_empty name src)
        · rcases scanStep_mem name src [] hcon with ⟨kv, hmem, hv⟩
          exact hsrc kv hmem hv

theorem componentEntries_eq_filterMap (src : Src) (comps : List Str)
    (hsrc : ∀ kv ∈ src, kv.2 ≠ ([] : Str)) :
    componentEntries src comps =
      comps.filterMap (fun c => (findCommentary c src).map (fun m => (c, m))) := by
  induction comps with
  | nil => simp [componentEntries]
  | cons c rest ih =>
    cases hf : findCommentary c src with
    | none => simp [componentEntries, hf, ih]
    | some m =>
      have hm : m ≠ [] := by
        intro hnil
        subst hnil
        exact findCommentary_ne_empty c src hsrc hf
      have hmE : m.isEmpty = false := by simpa [List.isEmpty_iff] using hm
      simp [componentEntries, hf, hmE, ih]

/-!
## The claims
-/

/-- Claim C1, counterexample: tokenization is NOT lossless.  On the line
`"श्रीमाता नमः ॥ 1 ॥"` (no brackets, so bracket-breakdown removal leaves it
unchanged) the concatenation of the segment texts is
`"श्रीमाता नमः॥ 1 ॥"` — the space before the verse marker is lost, because
the span before the marker is whitespace-split and rejoined with single
separators between units only. -/
theorem c1_counterexample :
    segTexts (parseWordsFromLine "श्रीमाता नमः ॥ 1 ॥".data) ≠ "श्रीमाता नमः ॥ 1 ॥".data := by
  decide

/-- Claim C1, amended: concatenating the texts of all segments produced
by tokenizing a line (after bracket-breakdown removal), in emission
order, reproduces the line with its whitespace normalized: verse-marker
spans verbatim, every other span replaced by its whitespace-delimited
units joined with single spaces.  Exact reproduction therefore holds
exactly for lines that are fixed points of this normalization. -/
theorem c1_lossless_up_to_whitespace (bds : BMap) (cs : Str) :
    segTexts (tokenizeLine bds cs) = normalizeLine cs := by
  unfold tokenizeLine normalizeLine
  exact segTexts_flatten_map bds (splitMarkers cs)

/-- Claim C2, counterexample: on the spec's own test input the resolver
returns not-found, not `"A B"`.  The word splits at the avagraha into
`"सर्वारुणा"` (with final `ा`) and `"नवद्याङ्गी"` (without initial `अ`),
neither of which is a key of the given source, and every other ladder
step also fails. -/
theorem c2_counterexample :
    findCommentary "सर्वारुणाऽनवद्याङ्गी".data
      [("सर्वारुण".data, "A".data), ("अनवद्याङ्गी".data, "B".data)] = none := by
  decide

/-- Claim C2, amended: avagraha split-and-combine does yield `"A B"` when
the source is keyed by the two actual split parts `"सर्वारुणा"` and
`"नवद्याङ्गी"`: both parts resolve and their texts are concatenated with a
single space, in left-to-right order. -/
theorem c2_avagraha_combination :
    findCommentary "सर्वारुणाऽनवद्याङ्गी".data
      [("सर्वारुणा".data, "A".data), ("नवद्याङ्गी".data, "B".data)] = some "A B".data := by
  decide

/-- Claim C3, counterexample: for the line `"श्रीमाता नमः ॥ 1 ॥"` and the
single source mapping `श्रीमाता ↦ M1, नमः ↦ M2`, there is NO annotation at
position index 1 of the line — that index is the separator segment, so
`"M2"` sits at index 2, not 1 as the claim states. -/
theorem c3_counterexample :
    (wordToCommentaryMap
        [("S".data, [("श्रीमाता".data, "M1".data), ("नमः".data, "M2".data)])]
        ["श्रीमाता नमः ॥ 1 ॥".data]).lookup ((0 : Nat), (1 : Nat)) = none := by
  decide

/-- Claim C3, amended: the annotator produces exactly two annotations for
that line — `"M1"` at position index 0 and `"M2"` at position index 2
(the separator segment occupies index 1), and the verse-marker segment at
index 3 carries no annotation. -/
theorem c3_annotation_positions :
    wordToCommentaryMap
        [("S".data, [("श्रीमाता".data, "M1".data), ("नमः".data, "M2".data)])]
        ["श्रीमाता नमः ॥ 1 ॥".data] =
      [((0, 0), { word := "श्रीमाता".data, commentariesBySource := [("S".data, "M1".data)] }),
       ((0, 2), { word := "नमः".data, commentariesBySource := [("S".data, "M2".data)] })] := by
  decide

/-- Claim C4: for every component list and every source whose commentary
texts are non-empty (the data-model invariant), the synthesized
annotation text consists of exactly one `"<component>\n<meaning>"` block
per component that resolves in that source, joined by a blank-line
separator in component order; unresolved components are omitted, and an
annotation is produced exactly when at least one component resolves. -/
theorem c4_breakdown_aggregation (comps : List Str) (src : Src)
    (hsrc : ∀ kv ∈ src, kv.2 ≠ ([] : Str)) :
    componentCommentary src comps =
      (if (comps.filterMap
            (fun c => (findCommentary c src).map (fun m => c ++ '\n' :: m))).isEmpty then
        none
       else
        some (intercalateL "\n\n".data
          (comps.filterMap (fun c => (findCommentary c src).map (fun m => c ++ '\n' :: m))))) := by
  have hent := componentEntries_eq_filterMap src comps hsrc
  have hblocks :
      comps.filterMap (fun c => (findCommentary c src).map (fun m => c ++ '\n' :: m)) =
        (componentEntries src comps).map (fun e => e.1 ++ '\n' :: e.2) := by
    rw [hent, List.map_filterMap]
    simp [Option.map_map]
    rfl
  unfold componentCommentary
  rw [hblocks]
  cases componentEntries src comps <;> simp

/-- Claim C4, witness: the spec's own example — components
`महाबुद्धिः, महासिद्धिः, महायोगेश्वरेश्वरी` against a source resolving only
the first two yields exactly the two blocks joined by a blank line. -/
theorem c4_witness :
    (∀ kv ∈ ([("महाबुद्धिः".data, "X1".data), ("महासिद्धिः".data, "X2".data)] : Src),
        kv.2 ≠ ([] : Str)) ∧
    componentCommentary [("महाबुद्धिः".data, "X1".data), ("महासिद्धिः".data, "X2".data)]
        ["महाबुद्धिः".data, "महासिद्धिः".data, "महायोगेश्वरेश्वरी".data] =
      some "महाबुद्धिः\nX1\n\nमहासिद्धिः\nX2".data := by
  refine ⟨by decide, ?_⟩
  rw [c4_breakdown_aggregation
    ["महाबुद्धिः".data, "महासिद्धिः".data, "महायोगेश्वरेश्वरी".data]
    [("महाबुद्धिः".data, "X1".data), ("महासिद्धिः".data, "X2".data)] (by decide)]
  decide

/-- Claim C5: resolving the literal Om forms `ॐ` and `ओं` returns the
fixed built-in gloss for every commentary source, whatever its
contents (the empty source included). -/
theorem c5_om_special_case (src : Src) :
    findCommentary "ॐ".data src = some "The primordial Sound".data ∧
      findCommentary "ओं".data src = some "The primordial Sound".data := by
  constructor <;> rfl

/-- Claim C6: when the Om, exact and avagraha steps all fail and the
hyphen-stripped exact lookup succeeds, the resolver returns that lookup's
value. -/
theorem c6_hyphen_fallback (name : Str) (src : Src) (v : Str)
    (h1 : omStep name = none) (h2 : exactStep name src = none)
    (h3 : avagrahaStep name src = none) (h4 : hyphenStep name src = some v) :
    findCommentary name src = some v := by
  simp [findCommentary, h1, h2, h3, h4]

/-- Claim C6, witness: the spec's concrete example —
`resolve("चितिस्तत्पद-लक्ष्यार्था", {"चितिस्तत्पदलक्ष्यार्था": "X"})` is `"X"`. -/
theorem c6_witness :
    findCommentary "चितिस्तत्पद-लक्ष्यार्था".data
      [("चितिस्तत्पदलक्ष्यार्था".data, "X".data)] = some "X".data :=
  c6_hyphen_fallback _ _ _ (by decide) (by decide) (by decide) (by decide)

/-- Claim C7: the extractor's final output is sorted ascending by
`nameNumber` with missing numbers treated as 0, and in particular blocks
numbered 3, 1, 2 in file order come out ordered 1, 2, 3. -/
theorem c7_corpus_ordering :
    (∀ lines : List Str, List.Sorted entryLe (extractCorpus lines)) ∧
      (extractCorpus ["# NAME 3".data, "# NAME 1".data, "# NAME 2".data]).map
          (fun e => e.nameNumber) = [some 1, some 2, some 3] :=
  ⟨fun lines => List.sorted_insertionSort entryLe ((splitBlocks lines).map parseNameBlock),
   by decide⟩

/-- Claim C8: when the name lines of a block carry a verse-marker number
`m`, the extracted entry's number is `m`, overriding any `# NAME n`
header number. -/
theorem c8_marker_number_wins (b : List Str) (n m : Nat)
    (_hheader : parseTitle (b.headD []) = some n)
    (hmarker : (parseNameLines (nameLinesRawOf b)).nameNumber = some m) :
    (parseNameBlock b).nameNumber = some m := by
  simp [parseNameBlock, hmarker]

/-- Claim C8, witness: a block headed `# NAME 5` whose name lines contain
`॥ 7 ॥` extracts with number 7. -/
theorem c8_witness :
    (parseNameBlock ["# NAME 5".data, "श्रीमाता".data, "॥ 7 ॥".data]).nameNumber = some 7 :=
  c8_marker_number_wins _ 5 7 (by decide) (by decide)

theorem snd_mem_of_mem_enum {α : Type} {l : List α} {x : Nat × α} (h : x ∈ l.enum) :
    x.2 ∈ l := by
  exact List.getElem?_mem (List.mem_enum_iff_getElem?.mp h)

/-- Claim C9: a block with no `## COMPOSITIONS` header still parses (no
abort is possible — `parseNameBlock` is total) and its composition field
degrades to the empty summary and empty word-by-word list; the witness
exhibits such a block whose root breakdown and commentary are still
populated from their own sections. -/
theorem c9_missing_compositions (b : List Str)
    (h : ∀ l ∈ b, isCompHeader l = false) :
    (parseNameBlock b).compositions = { summary := [], wordByWord := [] } := by
  have hidx : idxCompOf b = none := by
    unfold idxCompOf findIndexFrom
    rw [Option.map_eq_none', List.find?_eq_none]
    intro x hx
    simp [h x.2 (snd_mem_of_mem_enum hx)]
  have hcomp : compLinesOf b = [] := by
    unfold compLinesOf
    rw [hidx]
  simp [parseNameBlock, hcomp, parseCompositions]

/-- Claim C9, witness: a concrete block with a root-breakdown table and a
Bhāskararāya commentary but no `## COMPOSITIONS` section yields an empty
composition summary while the root breakdown is non-empty and the
commentary text is preserved. -/
theorem c9_witness :
    (∀ l ∈ ["# NAME 2".data, "श्रीमाता".data, "॥ 2 ॥".data,
        "## ROOT BREAKDOWN".data,
        "| Compound | Sandhi | Components | Grammar | Literal | Contextual |".data,
        "|---|---|---|---|---|---|".data,
        "| श्रीमाता | — | श्री + माता | fem | great mother | divine mother |".data,
        "## COMMENTARY (BHASKARARAYA)".data,
        "> some commentary text".data], isCompHeader l = false) ∧
    (parseNameBlock ["# NAME 2".data, "श्रीमाता".data, "॥ 2 ॥".data,
        "## ROOT BREAKDOWN".data,
        "| Compound | Sandhi | Components | Grammar | Literal | Contextual |".data,
        "|---|---|---|---|---|---|".data,
        "| श्रीमाता | — | श्री + माता | fem | great mother | divine mother |".data,
        "## COMMENTARY (BHASKARARAYA)".data,
        "> some commentary text".data]).compositions =
      { summary := [], wordByWord := [] } ∧
    (parseNameBlock ["# NAME 2".data, "श्रीमाता".data, "॥ 2 ॥".data,
        "## ROOT BREAKDOWN".data,
        "| Compound | Sandhi | Components | Grammar | Literal | Contextual |".data,
        "|---|---|---|---|---|---|".data,
        "| श्रीमाता | — | श्री + माता | fem | great mother | divine mother |".data,
        "## COMMENTARY (BHASKARARAYA)".data,
        "> some commentary text".data]).rootBreakdown ≠ [] ∧
    ((parseNameBlock ["# NAME 2".data, "श्रीमाता".data, "॥ 2 ॥".data,
        "## ROOT BREAKDOWN".data,
        "| Compound | Sandhi | Components | Grammar | Literal | Contextual |".data,
        "|---|---|---|---|---|---|".data,
        "| श्रीमाता | — | श्री + माता | fem | great mother | divine mother |".data,
        "## COMMENTARY (BHASKARARAYA)".data,
        "> some commentary text".data]).commentaries.lookup "bhaskararaya".data).map
        Commentary.text = some "some commentary text".data :=
  ⟨by decide, c9_missing_compositions _ (by decide), by decide, by decide⟩

/-- Claim C10: an empty-string result can only come from the final
dash-insensitive key scan: whenever the resolver returns the empty
string, the Om, exact-match, avagraha and hyphen-stripped steps all
declined (they treat keys mapped to the empty string as absent, so the
ladder continues past them) and the scan produced it. -/
theorem c10_empty_string_provenance (name : Str) (src : Src)
    (h : findCommentary name src = some []) :
    omStep name = none ∧ exactStep name src = none ∧ avagrahaStep name src = none ∧
      hyphenStep name src = none ∧ scanStep name src = some [] := by
  unfold findCommentary at h
  split at h
  · rename_i r heq
    injection h with h'
    subst h'
    exact absurd heq (omStep_ne_empty name)
  · rename_i heq0
    split at h
    · rename_i r heq
      injection h with h'
      subst h'
      exact absurd heq (exactStep_ne_empty name src)
    · rename_i heq1
      split at h
      · rename_i r heq
        injection h with h'
        subst h'
        exact absurd heq (avagrahaStep_ne_empty name src)
      · rename_i heq2
        split at h
        · rename_i r heq
          injection h with h'
          subst h'
          exact absurd heq (hyphenStep_ne_empty name src)
        · rename_i heq3
          exact ⟨heq0, heq1, heq2, heq3, h⟩

/-- Claim C10, witness: the source `{"क-": ""}` and the word `"क"` — the
empty value reaches the caller, and only through the dash-insensitive
scan. -/
theorem c10_witness :
    omStep "क".data = none ∧ exactStep "क".data [("क-".data, [])] = none ∧
      avagrahaStep "क".data [("क-".data, [])] = none ∧
      hyphenStep "क".data [("क-".data, [])] = none ∧
      scanStep "क".data [("क-".data, [])] = some [] :=
  c10_empty_string_provenance "क".data [("क-".data, [])] (by decide)

end LSN
